import Mathlib

/-!
Shallow embedding of `src/monitor_bot.py` (polymarket_hit_bot).

Conventions of the embedding:
* Python `float` prices, thresholds and timestamps become `ℚ`.
* `datetime.now()` becomes an explicit `now : ℚ` argument threaded through each
  call; one call uses a single instant (the Python code reads the clock twice
  per call, in `_cooldown_expired` and at line 104, an ε apart).
* The mutable `self.states` dict becomes an association list passed in and out;
  `should_alert` returns the fire decision together with the updated engine.
* Rational division is total in Lean (`x / 0 = 0`); where Python's
  `ZeroDivisionError` matters, the fallible variant `should_alert_checked`
  returns `none` exactly when the divisor is zero.
-/

namespace MonitorBot

/-- The `AlertState` dataclass (lines 65-69): tracks price zone transitions. -/
structure AlertState where
  last_in_zone : Bool
  last_alert_time : Option ℚ
deriving DecidableEq

/-- The keys of `AlertEngine.states`: `(symbol, target)` tuples (line 75). -/
abbrev AlertKey := String × ℚ

/-- One entry of the `assets` configuration list: the fields of an asset dict
read anywhere in the program (`type`, `name`, `symbol`, `targets`,
`threshold_percent`, `allow_repeat_alerts`). -/
structure Asset where
  type : String
  name : String
  symbol : String
  targets : List ℚ
  threshold_percent : ℚ
  allow_repeat_alerts : Bool
deriving DecidableEq

/-- Python dict lookup `self.states[key]` / `key in self.states` on the
association-list model. -/
def getState : List (AlertKey × AlertState) → AlertKey → Option AlertState
  | [], _ => none
  | (k0, s0) :: rest, k => if k0 = k then some s0 else getState rest k

/-- Python dict assignment `self.states[key] = s`: overwrite in place if the
key is present, append otherwise (dict insertion order). -/
def setState : List (AlertKey × AlertState) → AlertKey → AlertState → List (AlertKey × AlertState)
  | [], k, s => [(k, s)]
  | (k0, s0) :: rest, k, s => if k0 = k then (k, s) :: rest else (k0, s0) :: setState rest k s

/-- The `AlertEngine` class (lines 71-112): asset list, cooldown and per-key states. -/
structure AlertEngine where
  assets : List Asset
  cooldown_sec : ℚ
  states : List (AlertKey × AlertState)
deriving DecidableEq

/-- The state-initialisation loop of `AlertEngine.__init__` (lines 77-81):
`states[(symbol, target)] = AlertState(last_in_zone=False)` for every
asset/target combination. -/
def initStates (assets : List Asset) : List (AlertKey × AlertState) :=
  assets.foldl
    (fun m a => a.targets.foldl (fun m2 t => setState m2 (a.symbol, t) ⟨false, none⟩) m) []

/-- The constructor `AlertEngine.__init__` (lines 72-81). -/
def AlertEngine.init (assets : List Asset) (cooldown_sec : ℚ) : AlertEngine :=
  AlertEngine.mk assets cooldown_sec (initStates assets)

/-- Method `AlertEngine._cooldown_expired` (lines 108-112), with the clock passed in:
true when `last_alert_time` is unset or `now - last_alert_time >= cooldown_sec`. -/
def cooldown_expired (cooldown_sec : ℚ) (state : AlertState) (now : ℚ) : Bool :=
  match state.last_alert_time with
  | none => true
  | some t => decide (now - t ≥ cooldown_sec)

/-- Line 91, `diff_percent = abs(current_price - target) / target * 100`,
with total rational division. -/
def diff_percent (current_price target : ℚ) : ℚ :=
  |current_price - target| / target * 100

/-- Method `AlertEngine.should_alert` (lines 83-106). Returns the fire decision and
the engine with the updated state map. -/
def AlertEngine.should_alert (e : AlertEngine) (symbol : String)
    (target current_price threshold_percent now : ℚ) : Bool × AlertEngine :=
  let key : AlertKey := (symbol, target)
  let state : AlertState := (getState e.states key).getD ⟨false, none⟩
  let currently_in_zone : Bool := decide (diff_percent current_price target ≤ threshold_percent)
  let should_trigger : Bool :=
    !state.last_in_zone && currently_in_zone && cooldown_expired e.cooldown_sec state now
  let new_time : Option ℚ := if should_trigger then some now else state.last_alert_time
  (should_trigger,
    AlertEngine.mk e.assets e.cooldown_sec (setState e.states key ⟨currently_in_zone, new_time⟩))

/-- Variant of `should_alert` with the division modelled as fallible: Python raises
`ZeroDivisionError` at line 91 when `target = 0` (float division by zero
raises), so the call returns no boolean in that case. -/
def AlertEngine.should_alert_checked (e : AlertEngine) (symbol : String)
    (target current_price threshold_percent now : ℚ) : Option (Bool × AlertEngine) :=
  if target = 0 then none
  else some (e.should_alert symbol target current_price threshold_percent now)

/-- One price sample delivered to `should_alert` for a fixed key: the observed
price and the clock reading of that call. -/
structure Sample where
  price : ℚ
  now : ℚ
deriving DecidableEq

/-- The sequence of fire decisions obtained by feeding a list of samples for a
single `(symbol, target)` key through `should_alert`, threading the state. -/
def runKey (symbol : String) (target threshold_percent : ℚ) :
    AlertEngine → List Sample → List Bool
  | _, [] => []
  | e, s :: rest =>
    let r := e.should_alert symbol target s.price threshold_percent s.now
    r.1 :: runKey symbol target threshold_percent r.2 rest

/-- The engine state after feeding a list of samples for a single key. -/
def engineAfter (symbol : String) (target threshold_percent : ℚ) :
    AlertEngine → List Sample → AlertEngine
  | e, [] => e
  | e, s :: rest =>
    engineAfter symbol target threshold_percent
      (e.should_alert symbol target s.price threshold_percent s.now).2 rest

/-- Method `PriceMonitor._validate_config` (lines 275-284): for each asset in order,
raise unless `0.01 <= threshold_percent <= 0.1`, then raise if the target list
is empty. The Python error strings carry formatted numbers; the model keeps
only their fixed prefixes. -/
def validate_config : List Asset → Except String Unit
  | [] => Except.ok ()
  | a :: rest =>
    if (1 : ℚ)/100 ≤ a.threshold_percent ∧ a.threshold_percent ≤ (1 : ℚ)/10 then
      if a.targets = [] then Except.error ("No target prices defined for " ++ a.symbol)
      else validate_config rest
    else Except.error ("Invalid threshold for " ++ a.symbol)

/-- The `PriceMonitor` class (lines 252-273): the configuration fields the alert path
reads. Fetchers and the notification dispatcher are external collaborators and
carry no alert state. -/
structure PriceMonitor where
  assets : List Asset
  alert_engine : AlertEngine
deriving DecidableEq

/-- The constructor `PriceMonitor.__init__` (lines 253-273): build the engine (pre-registering
every asset/target key), then run `_validate_config`; a raise propagates out of
the constructor, so no monitor is produced and `start` (scheduling, line 347)
is never reached. -/
def PriceMonitor.init (config_assets : List Asset) (alert_cooldown_sec : ℚ) :
    Except String PriceMonitor :=
  let m := PriceMonitor.mk config_assets (AlertEngine.init config_assets alert_cooldown_sec)
  match validate_config config_assets with
  | Except.ok _ => Except.ok m
  | Except.error msg => Except.error msg

/-- Python dict lookup `prices[symbol]` / `symbol in prices` on the fetch
result, modelled as an association list. -/
def lookupPrice : List (String × ℚ) → String → Option ℚ
  | [], _ => none
  | (s0, p0) :: rest, s => if s0 = s then some p0 else lookupPrice rest s

/-- The inner target loop of `PriceMonitor._check_assets` (lines 327-345): for
each target of one asset call `should_alert`; on true the alert for
`(symbol, target)` is dispatched (collected here as a fire record). -/
def checkTargets (symbol : String) (threshold_percent current_price now : ℚ) :
    AlertEngine → List ℚ → List (String × ℚ) × AlertEngine
  | e, [] => ([], e)
  | e, t :: rest =>
    let r := e.should_alert symbol t current_price threshold_percent now
    let r2 := checkTargets symbol threshold_percent current_price now r.2 rest
    (if r.1 then (symbol, t) :: r2.1 else r2.1, r2.2)

/-- The per-asset loop of `PriceMonitor._check_assets` (lines 320-345): an
asset whose symbol is absent from the fetch result is skipped with a warning
(line 322-324); otherwise every target is checked at the fetched price. -/
def checkAssetList (prices : List (String × ℚ)) (now : ℚ) :
    AlertEngine → List Asset → List (String × ℚ) × AlertEngine
  | e, [] => ([], e)
  | e, a :: rest =>
    match lookupPrice prices a.symbol with
    | none => checkAssetList prices now e rest
    | some p =>
      let r := checkTargets a.symbol a.threshold_percent p now e a.targets
      let r2 := checkAssetList prices now r.2 rest
      (r.1 ++ r2.1, r2.2)

/-- Method `PriceMonitor._check_assets` (lines 303-345) for one asset type, with the
fetch result passed in: returns early when the type has no assets or the fetch
returned nothing, otherwise runs the per-asset loop and returns the fired
`(symbol, target)` records plus the updated monitor. -/
def PriceMonitor.check_assets (m : PriceMonitor) (asset_type : String)
    (prices : List (String × ℚ)) (now : ℚ) : List (String × ℚ) × PriceMonitor :=
  let assets := m.assets.filter (fun a => decide (a.type = asset_type))
  if assets.isEmpty then ([], m)
  else if prices.isEmpty then ([], m)
  else
    let r := checkAssetList prices now m.alert_engine assets
    (r.1, PriceMonitor.mk m.assets r.2)

/-- The state `should_alert` works on for a key: the stored one, or the lazily
created `AlertState(last_in_zone=False)` when the key is absent (lines 86-90). -/
def stateFor (e : AlertEngine) (k : AlertKey) : AlertState :=
  (getState e.states k).getD ⟨false, none⟩

/-- The cooldown condition as a proposition: `last_alert_time` is unset, or at
least `cooldown_sec` has elapsed since it. -/
def CooldownElapsed (cooldown_sec : ℚ) (state : AlertState) (now : ℚ) : Prop :=
  state.last_alert_time = none ∨
    ∃ t, state.last_alert_time = some t ∧ now - t ≥ cooldown_sec

theorem cooldown_expired_iff (c : ℚ) (st : AlertState) (now : ℚ) :
    cooldown_expired c st now = true ↔ CooldownElapsed c st now := by
  cases h : st.last_alert_time with
  | none => simp [cooldown_expired, CooldownElapsed, h]
  | some t => simp [cooldown_expired, CooldownElapsed, h]

theorem getState_setState_self (m : List (AlertKey × AlertState)) (k : AlertKey)
    (s : AlertState) : getState (setState m k s) k = some s := by
  induction m with
  | nil => simp [setState, getState]
  | cons hd tl ih =>
    obtain ⟨k0, s0⟩ := hd
    by_cases h : k0 = k
    · simp [setState, getState, h]
    · simp [setState, getState, h, ih]

theorem getState_setState_ne (m : List (AlertKey × AlertState)) (k k' : AlertKey)
    (s : AlertState) (h : k ≠ k') : getState (setState m k s) k' = getState m k' := by
  induction m with
  | nil => simp [setState, getState, h]
  | cons hd tl ih =>
    obtain ⟨k0, s0⟩ := hd
    by_cases h0 : k0 = k
    · subst h0
      simp [setState, getState, h]
    · simp [setState, getState, h0, ih]

theorem should_alert_fst (e : AlertEngine) (symbol : String) (target p thr now : ℚ) :
    (e.should_alert symbol target p thr now).1 =
      (!(stateFor e (symbol, target)).last_in_zone &&
        decide (diff_percent p target ≤ thr) &&
        cooldown_expired e.cooldown_sec (stateFor e (symbol, target)) now) := rfl

theorem should_alert_snd_states (e : AlertEngine) (symbol : String) (target p thr now : ℚ) :
    (e.should_alert symbol target p thr now).2.states =
      setState e.states (symbol, target)
        ⟨decide (diff_percent p target ≤ thr),
          if (e.should_alert symbol target p thr now).1 then some now
          else (stateFor e (symbol, target)).last_alert_time⟩ := rfl

theorem should_alert_assets (e : AlertEngine) (symbol : String) (target p thr now : ℚ) :
    (e.should_alert symbol target p thr now).2.assets = e.assets := rfl

theorem should_alert_cooldown_sec (e : AlertEngine) (symbol : String) (target p thr now : ℚ) :
    (e.should_alert symbol target p thr now).2.cooldown_sec = e.cooldown_sec := rfl

theorem should_alert_fires_iff (e : AlertEngine) (symbol : String) (target p thr now : ℚ) :
    (e.should_alert symbol target p thr now).1 = true ↔
      (stateFor e (symbol, target)).last_in_zone = false ∧
      diff_percent p target ≤ thr ∧
      CooldownElapsed e.cooldown_sec (stateFor e (symbol, target)) now := by
  rw [should_alert_fst]
  simp [Bool.and_eq_true, Bool.not_eq_true', cooldown_expired_iff, and_assoc]

theorem should_alert_frame (e : AlertEngine) (symbol : String) (target p thr now : ℚ)
    (k : AlertKey) (hk : k ≠ (symbol, target)) :
    getState (e.should_alert symbol target p thr now).2.states k = getState e.states k := by
  rw [should_alert_snd_states]
  exact getState_setState_ne _ _ _ _ (Ne.symm hk)

theorem should_alert_getState_self (e : AlertEngine) (symbol : String)
    (target p thr now : ℚ) :
    getState (e.should_alert symbol target p thr now).2.states (symbol, target) =
      some ⟨decide (diff_percent p target ≤ thr),
        if (e.should_alert symbol target p thr now).1 then some now
        else (stateFor e (symbol, target)).last_alert_time⟩ := by
  rw [should_alert_snd_states]
  exact getState_setState_self _ _ _

theorem engineAfter_cooldown_sec (symbol : String) (target thr : ℚ) (e : AlertEngine)
    (trace : List Sample) :
    (engineAfter symbol target thr e trace).cooldown_sec = e.cooldown_sec := by
  induction trace generalizing e with
  | nil => rfl
  | cons s rest ih => rw [engineAfter, ih, should_alert_cooldown_sec]

theorem runKey_length (symbol : String) (target thr : ℚ) (e : AlertEngine)
    (trace : List Sample) :
    (runKey symbol target thr e trace).length = trace.length := by
  induction trace generalizing e with
  | nil => rfl
  | cons s rest ih => rw [runKey]; simp [ih]

/-- C1: for every finite sequence of price samples evaluated for a single
`(symbol, target)` key, `should_alert` returns true on sample `i` iff the state
before sample `i` records the key as outside the zone, sample `i` has
`diff_percent ≤ threshold_percent`, and the cooldown has elapsed
(`last_alert_time` unset, or `now - last_alert_time ≥ cooldown_sec`). -/
theorem C1_fires_iff (e : AlertEngine) (symbol : String) (target thr : ℚ)
    (trace : List Sample) (i : ℕ) (h : i < trace.length) :
    (runKey symbol target thr e trace).getD i false = true ↔
      ((stateFor (engineAfter symbol target thr e (trace.take i))
          (symbol, target)).last_in_zone = false ∧
        diff_percent (trace.getD i ⟨0, 0⟩).price target ≤ thr ∧
        CooldownElapsed e.cooldown_sec
          (stateFor (engineAfter symbol target thr e (trace.take i)) (symbol, target))
          (trace.getD i ⟨0, 0⟩).now) := by
  induction trace generalizing e i with
  | nil => simp at h
  | cons s rest ih =>
    cases i with
    | zero =>
      simp only [List.take_zero, engineAfter, List.getD_cons_zero, runKey,
        List.getD_cons_zero]
      exact should_alert_fires_iff e symbol target s.price thr s.now
    | succ i2 =>
      have h2 : i2 < rest.length := by simpa using h
      have step := ih (e.should_alert symbol target s.price thr s.now).2 i2 h2
      rw [should_alert_cooldown_sec] at step
      simpa only [runKey, List.getD_cons_succ, List.take_succ_cons, engineAfter]
        using step

/-- Witness for C1: the spec scenario target 50000, tolerance 0.05%, samples
50100 (outside) then 50025 (inside): fires on the second sample. -/
theorem C1_witness :
    (runKey "BTC" 50000 (5/100) (AlertEngine.mk [] 300 [])
      [⟨50100, 0⟩, ⟨50025, 10⟩]).getD 1 false = true := by
  refine (C1_fires_iff (AlertEngine.mk [] 300 []) "BTC" 50000 (5/100)
    [⟨50100, 0⟩, ⟨50025, 10⟩] 1 (by norm_num)).mpr ?_
  refine ⟨?_, by norm_num [diff_percent], ?_⟩
  · simp only [List.take, engineAfter, AlertEngine.should_alert, stateFor,
      getState, setState, cooldown_expired, diff_percent]
    norm_num
  · simp only [List.take, engineAfter, AlertEngine.should_alert, stateFor,
      getState, setState, cooldown_expired, diff_percent, CooldownElapsed]
    norm_num

theorem stateFor_should_alert_self (e : AlertEngine) (symbol : String)
    (target p thr now : ℚ) :
    stateFor (e.should_alert symbol target p thr now).2 (symbol, target) =
      ⟨decide (diff_percent p target ≤ thr),
        if (e.should_alert symbol target p thr now).1 then some now
        else (stateFor e (symbol, target)).last_alert_time⟩ := by
  simp [stateFor, should_alert_getState_self]

/-- If the key's stored `last_alert_time` is `t0` and every sample of the
(chronological) trace occurs at or after `t0`, then any fire in the trace
occurs at least `cooldown_sec` after `t0`. -/
theorem fires_after_time (symbol : String) (target thr : ℚ) (trace : List Sample)
    (e : AlertEngine) (t0 : ℚ)
    (hstate : (stateFor e (symbol, target)).last_alert_time = some t0)
    (hmono : trace.Pairwise (fun a b => a.now ≤ b.now))
    (hall : ∀ s ∈ trace, t0 ≤ s.now)
    (j : ℕ) (hj : j < trace.length)
    (hfire : (runKey symbol target thr e trace).getD j false = true) :
    (trace.getD j ⟨0, 0⟩).now - t0 ≥ e.cooldown_sec := by
  induction trace generalizing e t0 j with
  | nil => simp at hj
  | cons s rest ih =>
    cases i0 : (e.should_alert symbol target s.price thr s.now).1 with
    | true =>
      have hcool := (should_alert_fires_iff e symbol target s.price thr s.now).mp i0
      have hgap0 : s.now - t0 ≥ e.cooldown_sec := by
        rcases hcool.2.2 with hnone | ⟨t, ht, hge⟩
        · rw [hstate] at hnone; exact absurd hnone (by simp)
        · rw [hstate] at ht
          obtain rfl : t0 = t := by injection ht
          exact hge
      cases j with
      | zero => simpa using hgap0
      | succ j2 =>
        have hj2 : j2 < rest.length := by simpa using hj
        have hfire2 : (runKey symbol target thr
            (e.should_alert symbol target s.price thr s.now).2 rest).getD j2 false = true := by
          simpa only [runKey, List.getD_cons_succ] using hfire
        have hstate2 : (stateFor (e.should_alert symbol target s.price thr s.now).2
            (symbol, target)).last_alert_time = some s.now := by
          rw [stateFor_should_alert_self, i0]; simp
        have hall2 : ∀ s2 ∈ rest, s.now ≤ s2.now := fun s2 hs2 =>
          (List.pairwise_cons.mp hmono).1 s2 hs2
        have := ih (e.should_alert symbol target s.price thr s.now).2 s.now hstate2
          (List.pairwise_cons.mp hmono).2 hall2 j2 hj2 hfire2
        rw [should_alert_cooldown_sec] at this
        have ht0 : t0 ≤ s.now := hall s (by simp)
        calc e.cooldown_sec ≤ (rest.getD j2 ⟨0, 0⟩).now - s.now := this
          _ ≤ (rest.getD j2 ⟨0, 0⟩).now - t0 := by linarith
          _ = ((s :: rest).getD (j2 + 1) ⟨0, 0⟩).now - t0 := by
              rw [List.getD_cons_succ]
    | false =>
      cases j with
      | zero =>
        rw [show (runKey symbol target thr e (s :: rest)).getD 0 false =
          (e.should_alert symbol target s.price thr s.now).1 from rfl] at hfire
        rw [i0] at hfire
        exact absurd hfire (by simp)
      | succ j2 =>
        have hj2 : j2 < rest.length := by simpa using hj
        have hfire2 : (runKey symbol target thr
            (e.should_alert symbol target s.price thr s.now).2 rest).getD j2 false = true := by
          simpa only [runKey, List.getD_cons_succ] using hfire
        have hstate2 : (stateFor (e.should_alert symbol target s.price thr s.now).2
            (symbol, target)).last_alert_time = some t0 := by
          rw [stateFor_should_alert_self, i0]; simpa using hstate
        have := ih (e.should_alert symbol target s.price thr s.now).2 t0 hstate2
          (List.pairwise_cons.mp hmono).2
          (fun s2 hs2 => hall s2 (List.mem_cons_of_mem s hs2)) j2 hj2 hfire2
        rw [should_alert_cooldown_sec] at this
        simpa only [List.getD_cons_succ] using this

/-- C2: for a single `(symbol, target)` key evaluated over a chronological
sequence of samples, if `should_alert` fires on sample `i` and again on a later
sample `j`, the two fire times are at least `cooldown_sec` apart, regardless of
how many zone exits and re-entries occur in between. -/
theorem C2_cooldown_gap (e : AlertEngine) (symbol : String) (target thr : ℚ)
    (trace : List Sample)
    (hmono : trace.Pairwise (fun a b => a.now ≤ b.now))
    (i j : ℕ) (hij : i < j) (hj : j < trace.length)
    (hfi : (runKey symbol target thr e trace).getD i false = true)
    (hfj : (runKey symbol target thr e trace).getD j false = true) :
    (trace.getD j ⟨0, 0⟩).now - (trace.getD i ⟨0, 0⟩).now ≥ e.cooldown_sec := by
  induction trace generalizing e i j with
  | nil => simp at hj
  | cons s rest ih =>
    cases i with
    | zero =>
      obtain ⟨j2, rfl⟩ : ∃ j2, j = j2 + 1 := ⟨j - 1, by omega⟩
      have hj2 : j2 < rest.length := by simpa using hj
      have hfi0 : (e.should_alert symbol target s.price thr s.now).1 = true := by
        simpa only [runKey, List.getD_cons_zero] using hfi
      have hfj2 : (runKey symbol target thr
          (e.should_alert symbol target s.price thr s.now).2 rest).getD j2 false = true := by
        simpa only [runKey, List.getD_cons_succ] using hfj
      have hstate2 : (stateFor (e.should_alert symbol target s.price thr s.now).2
          (symbol, target)).last_alert_time = some s.now := by
        rw [stateFor_should_alert_self, hfi0]; simp
      have := fires_after_time symbol target thr rest
        (e.should_alert symbol target s.price thr s.now).2 s.now hstate2
        (List.pairwise_cons.mp hmono).2
        (fun s2 hs2 => (List.pairwise_cons.mp hmono).1 s2 hs2) j2 hj2 hfj2
      rw [should_alert_cooldown_sec] at this
      simpa only [List.getD_cons_succ, List.getD_cons_zero] using this
    | succ i2 =>
      obtain ⟨j2, rfl⟩ : ∃ j2, j = j2 + 1 := ⟨j - 1, by omega⟩
      have hj2 : j2 < rest.length := by simpa using hj
      have hij2 : i2 < j2 := by omega
      have hfi2 : (runKey symbol target thr
          (e.should_alert symbol target s.price thr s.now).2 rest).getD i2 false = true := by
        simpa only [runKey, List.getD_cons_succ] using hfi
      have hfj2 : (runKey symbol target thr
          (e.should_alert symbol target s.price thr s.now).2 rest).getD j2 false = true := by
        simpa only [runKey, List.getD_cons_succ] using hfj
      have := ih (e.should_alert symbol target s.price thr s.now).2
        (List.pairwise_cons.mp hmono).2 i2 j2 hij2 hj2 hfi2 hfj2
      rw [should_alert_cooldown_sec] at this
      simpa only [List.getD_cons_succ] using this

/-- Witness for C2: fire at t = 0, exit, re-enter and fire at t = 400 with
cooldown 300; the gap 400 is at least 300. -/
theorem C2_witness :
    (([(⟨50025, 0⟩ : Sample), ⟨50500, 100⟩, ⟨50025, 400⟩].getD 2 ⟨0, 0⟩).now -
      ([(⟨50025, 0⟩ : Sample), ⟨50500, 100⟩, ⟨50025, 400⟩].getD 0 ⟨0, 0⟩).now ≥
      (AlertEngine.mk [] 300 []).cooldown_sec) := by
  refine C2_cooldown_gap (AlertEngine.mk [] 300 []) "BTC" 50000 (5/100)
    [⟨50025, 0⟩, ⟨50500, 100⟩, ⟨50025, 400⟩] ?_ 0 2 (by norm_num) (by norm_num) ?_ ?_
  · simp only [List.pairwise_cons, List.mem_cons]
    norm_num
  · simp only [runKey, AlertEngine.should_alert, getState, setState, stateFor,
      cooldown_expired, diff_percent, List.getD_cons_zero]
    norm_num
  · simp only [runKey, AlertEngine.should_alert, getState, setState, stateFor,
      cooldown_expired, diff_percent, List.getD_cons_succ, List.getD_cons_zero]
    norm_num

/-- While the key is already marked in-zone and the price stays inside the
zone, no sample fires. -/
theorem no_fire_while_in_zone (symbol : String) (target thr : ℚ) (trace : List Sample)
    (e : AlertEngine)
    (hzone : (stateFor e (symbol, target)).last_in_zone = true)
    (hall : ∀ s ∈ trace, diff_percent s.price target ≤ thr) :
    ∀ b ∈ runKey symbol target thr e trace, b = false := by
  induction trace generalizing e with
  | nil => simp [runKey]
  | cons s rest ih =>
    intro b hb
    rw [runKey] at hb
    rcases List.mem_cons.mp hb with hb | hb
    · subst hb
      rw [should_alert_fst, hzone]
      simp
    · refine ih (e.should_alert symbol target s.price thr s.now).2 ?_
        (fun s2 hs2 => hall s2 (List.mem_cons_of_mem s hs2)) b hb
      rw [stateFor_should_alert_self]
      simpa using hall s (by simp)

theorem getD_false_of_all_false (l : List Bool) (h : ∀ b ∈ l, b = false) (i : ℕ) :
    l.getD i false = false := by
  induction l generalizing i with
  | nil => simp
  | cons b rest ih =>
    cases i with
    | zero => simpa using h b (by simp)
    | succ i2 => simpa using ih (fun x hx => h x (by simp [hx])) i2

/-- C3: (a) after every `should_alert` call the stored `last_in_zone` equals
the zone membership of the sample just evaluated, fire or no fire; (b) hence a
price staying inside the zone across all samples of a trace fires at most on
the first sample, never on samples 2..N. -/
theorem C3_in_zone_reflects_last_sample :
    (∀ (e : AlertEngine) (symbol : String) (target p thr now : ℚ),
      ((stateFor (e.should_alert symbol target p thr now).2 (symbol, target)).last_in_zone
          = true ↔ diff_percent p target ≤ thr)) ∧
    (∀ (e : AlertEngine) (symbol : String) (target thr : ℚ) (trace : List Sample),
      (∀ s ∈ trace, diff_percent s.price target ≤ thr) →
      ∀ i, 0 < i → (runKey symbol target thr e trace).getD i false = false) := by
  constructor
  · intro e symbol target p thr now
    rw [stateFor_should_alert_self]
    simp
  · intro e symbol target thr trace hall i hi
    cases trace with
    | nil => simp [runKey]
    | cons s rest =>
      obtain ⟨i2, rfl⟩ : ∃ i2, i = i2 + 1 := ⟨i - 1, by omega⟩
      rw [runKey, List.getD_cons_succ]
      refine getD_false_of_all_false _ ?_ i2
      refine no_fire_while_in_zone symbol target thr rest
        (e.should_alert symbol target s.price thr s.now).2 ?_
        (fun s2 hs2 => hall s2 (List.mem_cons_of_mem s hs2))
      rw [stateFor_should_alert_self]
      simpa using hall s (by simp)

/-- Witness for C3: three consecutive in-zone samples (50025, 50024, 50020
around target 50000, tolerance 0.05%) never fire on the second sample. -/
theorem C3_witness :
    (runKey "BTC" 50000 (5/100) (AlertEngine.mk [] 300 [])
      [⟨50025, 0⟩, ⟨50024, 5⟩, ⟨50020, 9⟩]).getD 1 false = false := by
  refine C3_in_zone_reflects_last_sample.2 (AlertEngine.mk [] 300 []) "BTC" 50000 (5/100)
    [⟨50025, 0⟩, ⟨50024, 5⟩, ⟨50020, 9⟩] ?_ 1 (by norm_num)
  intro s hs
  fin_cases hs <;> norm_num [diff_percent]

theorem validate_config_cons (a : Asset) (rest : List Asset) :
    validate_config (a :: rest) =
      if (1 : ℚ)/100 ≤ a.threshold_percent ∧ a.threshold_percent ≤ (1 : ℚ)/10 then
        if a.targets = [] then Except.error ("No target prices defined for " ++ a.symbol)
        else validate_config rest
      else Except.error ("Invalid threshold for " ++ a.symbol) := rfl

theorem validate_config_ok_iff (assets : List Asset) :
    validate_config assets = Except.ok () ↔
      ∀ a ∈ assets,
        ((1 : ℚ)/100 ≤ a.threshold_percent ∧ a.threshold_percent ≤ (1 : ℚ)/10) ∧
        a.targets ≠ [] := by
  induction assets with
  | nil => simp [validate_config]
  | cons a rest ih =>
    rw [validate_config_cons]
    split_ifs with h1 h2
    · constructor
      · intro h; exact absurd h (by simp)
      · intro h; exact absurd h2 (h a (List.mem_cons_self a rest)).2
    · rw [ih]
      constructor
      · intro h a2 ha2
        rcases List.mem_cons.mp ha2 with rfl | ha2
        · exact ⟨h1, h2⟩
        · exact h a2 ha2
      · intro h a2 ha2
        exact h a2 (List.mem_cons_of_mem a ha2)
    · constructor
      · intro h; exact absurd h (by simp)
      · intro h; exact absurd (h a (List.mem_cons_self a rest)).1 h1

theorem init_ok_elim (assets : List Asset) (c : ℚ) (m : PriceMonitor)
    (hok : PriceMonitor.init assets c = Except.ok m) :
    m.assets = assets ∧ validate_config assets = Except.ok () := by
  unfold PriceMonitor.init at hok
  cases h : validate_config assets with
  | ok u =>
    obtain ⟨⟩ := u
    rw [h] at hok
    cases hok
    exact ⟨rfl, rfl⟩
  | error msg => rw [h] at hok; cases hok

/-- An asset whose target price is 0: it passes `_validate_config`, which only
checks the threshold range and list non-emptiness. -/
def zeroTargetAsset : Asset := ⟨"crypto", "Zero", "ZRO", [0], 5/100, false⟩

/-- Counterexample to C4: `PriceMonitor` construction accepts a configuration
whose only target is 0, and the evaluation of that key divides by zero
(`should_alert_checked` reports the `ZeroDivisionError`). -/
theorem C4_counterexample :
    (∃ m, PriceMonitor.init [zeroTargetAsset] 300 = Except.ok m) ∧
    (0 : ℚ) ∈ zeroTargetAsset.targets ∧
    AlertEngine.should_alert_checked (AlertEngine.init [zeroTargetAsset] 300)
      "ZRO" 0 1 (5/100) 0 = none := by
  refine ⟨⟨PriceMonitor.mk [zeroTargetAsset] (AlertEngine.init [zeroTargetAsset] 300), ?_⟩,
    by simp [zeroTargetAsset], ?_⟩
  · norm_num [PriceMonitor.init, validate_config, zeroTargetAsset]
  · simp [AlertEngine.should_alert_checked]

/-- C4 (amended): construction accepted by `PriceMonitor` guarantees every
asset a threshold in [0.01, 0.1] and a nonempty target list, but does not
reject zero targets; the division in `should_alert` succeeds exactly on the
targets that happen to be nonzero. -/
theorem C4_amended_division_safe (assets : List Asset) (c : ℚ) (m : PriceMonitor)
    (hok : PriceMonitor.init assets c = Except.ok m) (a : Asset) (ha : a ∈ m.assets) :
    (((1 : ℚ)/100 ≤ a.threshold_percent ∧ a.threshold_percent ≤ (1 : ℚ)/10) ∧
      a.targets ≠ []) ∧
    ∀ t ∈ a.targets, t ≠ 0 →
      ∀ (e : AlertEngine) (p now : ℚ),
        e.should_alert_checked a.symbol t p a.threshold_percent now =
          some (e.should_alert a.symbol t p a.threshold_percent now) := by
  obtain ⟨hm, hv⟩ := init_ok_elim assets c m hok
  rw [hm] at ha
  refine ⟨(validate_config_ok_iff assets).mp hv a ha, ?_⟩
  intro t _ ht e p now
  simp [AlertEngine.should_alert_checked, ht]

/-- Witness for C4 (amended): a nonzero-target configuration is accepted and
its evaluation performs the division. -/
theorem C4_witness :
    ((((1 : ℚ)/100 ≤ (5 : ℚ)/100 ∧ (5 : ℚ)/100 ≤ (1 : ℚ)/10) ∧
        ([(50000 : ℚ)] : List ℚ) ≠ []) ∧
      ∀ t ∈ ([(50000 : ℚ)] : List ℚ), t ≠ 0 →
        ∀ (e : AlertEngine) (p now : ℚ),
          e.should_alert_checked "BTC" t p ((5 : ℚ)/100) now =
            some (e.should_alert "BTC" t p ((5 : ℚ)/100) now)) := by
  have h := C4_amended_division_safe [⟨"crypto", "Bitcoin", "BTC", [50000], 5/100, false⟩]
    300 (PriceMonitor.mk [⟨"crypto", "Bitcoin", "BTC", [50000], 5/100, false⟩]
      (AlertEngine.init [⟨"crypto", "Bitcoin", "BTC", [50000], 5/100, false⟩] 300))
    (by norm_num [PriceMonitor.init, validate_config])
    ⟨"crypto", "Bitcoin", "BTC", [50000], 5/100, false⟩ (by simp)
  simpa using h

/-- An asset whose tolerance 0.005 is below the admissible minimum 0.01 but is
neither 0, nor above the maximum, and has a target. -/
def lowToleranceAsset : Asset := ⟨"crypto", "Low", "LOW", [100], 1/200, false⟩

/-- Counterexample to C5: construction raises for tolerance 0.005 although the
asset has no tolerance of 0, no tolerance above the maximum 0.1, and a
nonempty target list — the claimed "exactly when" is violated. -/
theorem C5_counterexample :
    (∃ msg, PriceMonitor.init [lowToleranceAsset] 300 = Except.error msg) ∧
    lowToleranceAsset.threshold_percent ≠ 0 ∧
    lowToleranceAsset.threshold_percent ≤ (1 : ℚ)/10 ∧
    lowToleranceAsset.targets ≠ [] := by
  refine ⟨⟨"Invalid threshold for " ++ lowToleranceAsset.symbol, ?_⟩,
    by norm_num [lowToleranceAsset], by norm_num [lowToleranceAsset],
    by simp [lowToleranceAsset]⟩
  norm_num [PriceMonitor.init, validate_config, lowToleranceAsset]

/-- C5 (amended): `PriceMonitor` construction raises a configuration error —
before any scheduling, which only a constructed monitor can start — exactly
when some asset has a tolerance below 0.01 (including 0), a tolerance above
0.1, or an empty target list. -/
theorem C5_error_iff (assets : List Asset) (c : ℚ) :
    (∃ msg, PriceMonitor.init assets c = Except.error msg) ↔
      ∃ a ∈ assets,
        a.threshold_percent < (1 : ℚ)/100 ∨ (1 : ℚ)/10 < a.threshold_percent ∨
        a.targets = [] := by
  have hsplit : ∀ {r : Except String PriceMonitor},
      (∃ msg, r = Except.error msg) ↔ ¬ ∃ m, r = Except.ok m := by
    intro r
    cases r with
    | ok m => simp
    | error msg => simp
  have hok : (∃ m, PriceMonitor.init assets c = Except.ok m) ↔
      validate_config assets = Except.ok () := by
    constructor
    · rintro ⟨m, hm⟩
      exact (init_ok_elim assets c m hm).2
    · intro hv
      exact ⟨_, by unfold PriceMonitor.init; rw [hv]⟩
  rw [hsplit, hok, validate_config_ok_iff]
  constructor
  · intro hnot
    by_contra hno
    push_neg at hno
    apply hnot
    intro a ha
    have h3 := hno a ha
    push_neg at h3
    exact ⟨⟨h3.1, h3.2.1⟩, h3.2.2⟩
  · rintro ⟨a, ha, hbad⟩ hall
    obtain ⟨⟨h1, h2⟩, h3⟩ := hall a ha
    rcases hbad with h | h | h
    · exact absurd h1 (not_le.mpr h)
    · exact absurd h2 (not_le.mpr h)
    · exact h3 h

/-- Counterexample to C7: with cooldown 300, two distinct keys both fire at
the same instant 0, zero seconds apart — the cooldown does not rate-limit
across keys. -/
theorem C7_counterexample :
    ((AlertEngine.mk [] 300 []).should_alert "BTC" 50000 50000 (5/100) 0).1 = true ∧
    (((AlertEngine.mk [] 300 []).should_alert "BTC" 50000 50000 (5/100) 0).2.should_alert
      "ETH" 3000 3000 (5/100) 0).1 = true ∧
    ¬ ((0 : ℚ) - 0 ≥ (AlertEngine.mk [] 300 []).cooldown_sec) := by
  refine ⟨?_, ?_, by norm_num⟩ <;>
  · simp only [AlertEngine.should_alert, getState, setState, stateFor,
      cooldown_expired, diff_percent]
    norm_num

/-- C7 (amended): the cooldown is a per-key rate limit, not a global one —
each fire respects `now - last_alert_time ≥ cooldown_sec` for that key's own
stored last fire time (and distinct keys are unconstrained against each
other, as the counterexample shows). -/
theorem C7_per_key_cooldown (e : AlertEngine) (symbol : String)
    (target p thr now t0 : ℚ)
    (hprev : (stateFor e (symbol, target)).last_alert_time = some t0)
    (hfire : (e.should_alert symbol target p thr now).1 = true) :
    now - t0 ≥ e.cooldown_sec := by
  have h := (should_alert_fires_iff e symbol target p thr now).mp hfire
  rcases h.2.2 with hnone | ⟨t, ht, hge⟩
  · rw [hprev] at hnone; cases hnone
  · rw [hprev] at ht
    obtain rfl : t0 = t := by injection ht
    exact hge

/-- Witness for C7 (amended): a key whose last fire was at 0 re-fires at 400
with cooldown 300: 400 - 0 ≥ 300. -/
theorem C7_witness :
    (400 : ℚ) - 0 ≥
      (AlertEngine.mk [] 300 [(("BTC", 50000), ⟨false, some 0⟩)]).cooldown_sec := by
  refine C7_per_key_cooldown _ "BTC" 50000 50000 (5/100) 400 0
    (by simp [stateFor, getState]) ?_
  simp only [AlertEngine.should_alert, getState, setState, stateFor,
    cooldown_expired, diff_percent]
  norm_num

/-- C9: a `should_alert` call mutates at most the state stored under its own
`(symbol, target)` key: every other key's state is unchanged, and the engine's
asset list and cooldown are unchanged. -/
theorem C9_frame (e : AlertEngine) (symbol : String) (target p thr now : ℚ)
    (k : AlertKey) (hk : k ≠ (symbol, target)) :
    getState (e.should_alert symbol target p thr now).2.states k =
      getState e.states k ∧
    (e.should_alert symbol target p thr now).2.assets = e.assets ∧
    (e.should_alert symbol target p thr now).2.cooldown_sec = e.cooldown_sec :=
  ⟨should_alert_frame e symbol target p thr now k hk, rfl, rfl⟩

/-- Witness for C9: evaluating `("BTC", 50000)` leaves the state of
`("ETH", 3000)` and the engine's configuration untouched. -/
theorem C9_witness :
    (getState ((AlertEngine.mk [] 300 [(("ETH", 3000), ⟨true, some 5⟩)]).should_alert
        "BTC" 50000 50025 (5/100) 10).2.states ("ETH", 3000) =
      getState (AlertEngine.mk [] 300 [(("ETH", 3000), ⟨true, some 5⟩)]).states
        ("ETH", 3000) ∧
    ((AlertEngine.mk [] 300 [(("ETH", 3000), ⟨true, some 5⟩)]).should_alert
        "BTC" 50000 50025 (5/100) 10).2.assets =
      (AlertEngine.mk [] 300 [(("ETH", 3000), ⟨true, some 5⟩)]).assets ∧
    ((AlertEngine.mk [] 300 [(("ETH", 3000), ⟨true, some 5⟩)]).should_alert
        "BTC" 50000 50025 (5/100) 10).2.cooldown_sec =
      (AlertEngine.mk [] 300 [(("ETH", 3000), ⟨true, some 5⟩)]).cooldown_sec) := by
  refine C9_frame _ "BTC" 50000 50025 (5/100) 10 ("ETH", 3000) ?_
  simp

/-- Counterexample to C10: called with the key `("ZRO", 0)` absent from the
state map, `should_alert` does not return — the distance computation divides
by the target 0 and Python raises `ZeroDivisionError` (`should_alert_checked`
yields `none`). -/
theorem C10_counterexample :
    getState (AlertEngine.mk [] 300 []).states ("ZRO", 0) = none ∧
    AlertEngine.should_alert_checked (AlertEngine.mk [] 300 []) "ZRO" 0 1 (5/100) 0 =
      none :=
  ⟨rfl, by simp [AlertEngine.should_alert_checked]⟩

/-- C10 (amended): for any `(symbol, target)` pair absent from the state map
with a nonzero target — including pairs not in the asset catalog —
`should_alert` does not raise; it lazily creates a fresh state
(`last_in_zone = False`, `last_alert_time = None`), so the call fires exactly
when the sample is inside the zone: the first in-zone sample of a previously
unseen key always fires. -/
theorem C10_lazy_creation (e : AlertEngine) (symbol : String) (target p thr now : ℚ)
    (hmiss : getState e.states (symbol, target) = none) (ht : target ≠ 0) :
    e.should_alert_checked symbol target p thr now =
      some (e.should_alert symbol target p thr now) ∧
    ((e.should_alert symbol target p thr now).1 = true ↔ diff_percent p target ≤ thr) ∧
    getState (e.should_alert symbol target p thr now).2.states (symbol, target) =
      some ⟨decide (diff_percent p target ≤ thr),
        if (e.should_alert symbol target p thr now).1 then some now else none⟩ := by
  have hstate : stateFor e (symbol, target) = ⟨false, none⟩ := by
    simp [stateFor, hmiss]
  refine ⟨by simp [AlertEngine.should_alert_checked, ht], ?_, ?_⟩
  · rw [should_alert_fires_iff, hstate]
    simp [CooldownElapsed]
  · rw [should_alert_getState_self, hstate]

/-- Witness for C10 (amended): the first in-zone sample for the previously
unseen key `("BTC", 50000)` fires. -/
theorem C10_witness :
    ((AlertEngine.mk [] 300 []).should_alert "BTC" 50000 50000 (5/100) 0).1 = true := by
  refine ((C10_lazy_creation (AlertEngine.mk [] 300 []) "BTC" 50000 50000 (5/100) 0
    rfl (by norm_num)).2.1).mpr ?_
  norm_num [diff_percent]

theorem checkTargets_nil (symbol : String) (thr p now : ℚ) (e : AlertEngine) :
    checkTargets symbol thr p now e [] = ([], e) := rfl

theorem checkTargets_cons_snd (symbol : String) (thr p now t : ℚ) (e : AlertEngine)
    (rest : List ℚ) :
    (checkTargets symbol thr p now e (t :: rest)).2 =
      (checkTargets symbol thr p now (e.should_alert symbol t p thr now).2 rest).2 := rfl

theorem checkTargets_cons_fst (symbol : String) (thr p now t : ℚ) (e : AlertEngine)
    (rest : List ℚ) :
    (checkTargets symbol thr p now e (t :: rest)).1 =
      (if (e.should_alert symbol t p thr now).1 then
        (symbol, t) ::
          (checkTargets symbol thr p now (e.should_alert symbol t p thr now).2 rest).1
      else (checkTargets symbol thr p now (e.should_alert symbol t p thr now).2 rest).1) :=
  rfl

/-- The target loop for one asset touches only keys carrying that asset's
symbol. -/
theorem checkTargets_frame (symbol : String) (thr p now : ℚ) (targets : List ℚ)
    (e : AlertEngine) (k : AlertKey) (hk : k.1 ≠ symbol) :
    getState (checkTargets symbol thr p now e targets).2.states k =
      getState e.states k := by
  induction targets generalizing e with
  | nil => rfl
  | cons t rest ih =>
    rw [checkTargets_cons_snd, ih]
    exact should_alert_frame e symbol t p thr now k
      (fun h => hk (by rw [h]))

/-- Every fire record produced by the target loop carries the asset's symbol. -/
theorem checkTargets_fires_symbol (symbol : String) (thr p now : ℚ) (targets : List ℚ)
    (e : AlertEngine) :
    ∀ f ∈ (checkTargets symbol thr p now e targets).1, f.1 = symbol := by
  induction targets generalizing e with
  | nil => intro f hf; simp [checkTargets_nil] at hf
  | cons t rest ih =>
    intro f hf
    rw [checkTargets_cons_fst] at hf
    split at hf
    · rcases List.mem_cons.mp hf with rfl | hf
      · rfl
      · exact ih _ f hf
    · exact ih _ f hf

theorem checkAssetList_cons_skip (prices : List (String × ℚ)) (now : ℚ)
    (e : AlertEngine) (a : Asset) (rest : List Asset)
    (h : lookupPrice prices a.symbol = none) :
    checkAssetList prices now e (a :: rest) = checkAssetList prices now e rest := by
  simp only [checkAssetList, h]

theorem checkAssetList_cons_hit (prices : List (String × ℚ)) (now : ℚ)
    (e : AlertEngine) (a : Asset) (rest : List Asset) (p : ℚ)
    (h : lookupPrice prices a.symbol = some p) :
    checkAssetList prices now e (a :: rest) =
      ((checkTargets a.symbol a.threshold_percent p now e a.targets).1 ++
        (checkAssetList prices now
          (checkTargets a.symbol a.threshold_percent p now e a.targets).2 rest).1,
        (checkAssetList prices now
          (checkTargets a.symbol a.threshold_percent p now e a.targets).2 rest).2) := by
  simp only [checkAssetList, h]

/-- A symbol absent from the fetch result is untouched by the whole per-asset
loop: its keys' states are unchanged and no fire record carries it. -/
theorem checkAssetList_missing_symbol (prices : List (String × ℚ)) (now : ℚ)
    (assets : List Asset) (e : AlertEngine) (s : String)
    (hmiss : lookupPrice prices s = none) :
    (∀ t : ℚ, getState (checkAssetList prices now e assets).2.states (s, t) =
      getState e.states (s, t)) ∧
    ∀ f ∈ (checkAssetList prices now e assets).1, f.1 ≠ s := by
  induction assets generalizing e with
  | nil => exact ⟨fun t => rfl, by intro f hf; simp [checkAssetList] at hf⟩
  | cons a rest ih =>
    cases hl : lookupPrice prices a.symbol with
    | none =>
      rw [checkAssetList_cons_skip prices now e a rest hl]
      exact ih e
    | some p =>
      have hne : s ≠ a.symbol := by
        rintro rfl
        rw [hl] at hmiss
        cases hmiss
      rw [checkAssetList_cons_hit prices now e a rest p hl]
      constructor
      · intro t
        rw [(ih _).1 t]
        exact checkTargets_frame a.symbol a.threshold_percent p now a.targets e
          (s, t) hne
      · intro f hf
        rcases List.mem_append.mp hf with hf | hf
        · rw [checkTargets_fires_symbol a.symbol a.threshold_percent p now a.targets e
            f hf]
          exact fun h => hne h.symm
        · exact (ih _).2 f hf

/-- C6: on a class tick whose fetch result lacks an asset's symbol, none of
that asset's `(symbol, target)` keys fires, their `last_in_zone` and
`last_alert_time` are unchanged, and the skipped tick leaves the cooldown
clock (the stored `last_alert_time`) untouched. -/
theorem C6_missing_price_frame (m : PriceMonitor) (asset_type : String)
    (prices : List (String × ℚ)) (now : ℚ) (a : Asset) (ha : a ∈ m.assets)
    (hty : a.type = asset_type) (hmiss : lookupPrice prices a.symbol = none)
    (t : ℚ) (ht : t ∈ a.targets) :
    getState (m.check_assets asset_type prices now).2.alert_engine.states
        (a.symbol, t) =
      getState m.alert_engine.states (a.symbol, t) ∧
    ∀ f ∈ (m.check_assets asset_type prices now).1, f.1 ≠ a.symbol := by
  unfold PriceMonitor.check_assets
  dsimp only
  cases h1 : (m.assets.filter (fun x => decide (x.type = asset_type))).isEmpty with
  | true => simp
  | false =>
    cases h2 : prices.isEmpty with
    | true => simp
    | false =>
      simp only [Bool.false_eq_true, if_false]
      have h := checkAssetList_missing_symbol prices now
        (m.assets.filter (fun x => decide (x.type = asset_type))) m.alert_engine
        a.symbol hmiss
      exact ⟨h.1 t, h.2⟩

/-- Witness for C6: a monitor for BTC sees a tick whose fetch result only has
ETH; the BTC key's state is unchanged and no fire mentions BTC. -/
theorem C6_witness :
    (getState ((PriceMonitor.mk [⟨"crypto", "Bitcoin", "BTC", [50000], 5/100, false⟩]
        (AlertEngine.init [⟨"crypto", "Bitcoin", "BTC", [50000], 5/100, false⟩] 300)).check_assets
        "crypto" [("ETH", 3000)] 0).2.alert_engine.states ("BTC", 50000) =
      getState (PriceMonitor.mk [⟨"crypto", "Bitcoin", "BTC", [50000], 5/100, false⟩]
        (AlertEngine.init [⟨"crypto", "Bitcoin", "BTC", [50000], 5/100, false⟩] 300)).alert_engine.states
        ("BTC", 50000) ∧
    ∀ f ∈ ((PriceMonitor.mk [⟨"crypto", "Bitcoin", "BTC", [50000], 5/100, false⟩]
        (AlertEngine.init [⟨"crypto", "Bitcoin", "BTC", [50000], 5/100, false⟩] 300)).check_assets
        "crypto" [("ETH", 3000)] 0).1, f.1 ≠ "BTC") := by
  refine C6_missing_price_frame _ "crypto" [("ETH", 3000)] 0
    ⟨"crypto", "Bitcoin", "BTC", [50000], 5/100, false⟩ (by simp) rfl ?_ 50000 (by simp)
  simp [lookupPrice]

/-- Two assets agreeing on every configuration field the program reads except
`allow_repeat_alerts`. -/
def SameExceptRepeatFlag (a b : Asset) : Prop :=
  a.type = b.type ∧ a.name = b.name ∧ a.symbol = b.symbol ∧
  a.targets = b.targets ∧ a.threshold_percent = b.threshold_percent

theorem checkTargets_cooldown_sec (symbol : String) (thr p now : ℚ)
    (targets : List ℚ) (e : AlertEngine) :
    (checkTargets symbol thr p now e targets).2.cooldown_sec = e.cooldown_sec := by
  induction targets generalizing e with
  | nil => rfl
  | cons t rest ih =>
    rw [checkTargets_cons_snd, ih, should_alert_cooldown_sec]

/-- Engines agreeing on cooldown and state map behave identically under the
target loop, whatever their stored asset lists. -/
theorem checkTargets_congr (symbol : String) (thr p now : ℚ) (targets : List ℚ)
    (e1 e2 : AlertEngine) (hc : e1.cooldown_sec = e2.cooldown_sec)
    (hst : e1.states = e2.states) :
    (checkTargets symbol thr p now e1 targets).1 =
      (checkTargets symbol thr p now e2 targets).1 ∧
    (checkTargets symbol thr p now e1 targets).2.states =
      (checkTargets symbol thr p now e2 targets).2.states := by
  induction targets generalizing e1 e2 with
  | nil => exact ⟨rfl, hst⟩
  | cons t rest ih =>
    have hfire : (e1.should_alert symbol t p thr now).1 =
        (e2.should_alert symbol t p thr now).1 := by
      rw [should_alert_fst, should_alert_fst]
      simp only [stateFor, hst, hc]
    have hstep : (e1.should_alert symbol t p thr now).2.states =
        (e2.should_alert symbol t p thr now).2.states := by
      rw [should_alert_snd_states, should_alert_snd_states]
      simp only [stateFor, hst, hc, hfire]
    have hcool : (e1.should_alert symbol t p thr now).2.cooldown_sec =
        (e2.should_alert symbol t p thr now).2.cooldown_sec := by
      rw [should_alert_cooldown_sec, should_alert_cooldown_sec, hc]
    obtain ⟨ih1, ih2⟩ := ih (e1.should_alert symbol t p thr now).2
      (e2.should_alert symbol t p thr now).2 hcool hstep
    constructor
    · rw [checkTargets_cons_fst, checkTargets_cons_fst, hfire, ih1]
    · rw [checkTargets_cons_snd, checkTargets_cons_snd, ih2]

theorem checkAssetList_cooldown_sec (prices : List (String × ℚ)) (now : ℚ)
    (assets : List Asset) (e : AlertEngine) :
    (checkAssetList prices now e assets).2.cooldown_sec = e.cooldown_sec := by
  induction assets generalizing e with
  | nil => rfl
  | cons a rest ih =>
    cases hl : lookupPrice prices a.symbol with
    | none => rw [checkAssetList_cons_skip prices now e a rest hl, ih]
    | some p =>
      rw [checkAssetList_cons_hit prices now e a rest p hl]
      dsimp only
      rw [ih, checkTargets_cooldown_sec]

/-- Asset catalogs differing only in `allow_repeat_alerts` drive the per-asset
loop to the same fires and the same state map, from engines agreeing on
cooldown and state map. -/
theorem checkAssetList_congr (prices : List (String × ℚ)) (now : ℚ)
    (as1 as2 : List Asset) (h : List.Forall₂ SameExceptRepeatFlag as1 as2)
    (e1 e2 : AlertEngine) (hc : e1.cooldown_sec = e2.cooldown_sec)
    (hst : e1.states = e2.states) :
    (checkAssetList prices now e1 as1).1 = (checkAssetList prices now e2 as2).1 ∧
    (checkAssetList prices now e1 as1).2.states =
      (checkAssetList prices now e2 as2).2.states := by
  induction h generalizing e1 e2 with
  | nil => exact ⟨rfl, hst⟩
  | cons hab hrest ih =>
    rename_i a b l1 l2
    obtain ⟨hty, hname, hsym, htgt, hthr⟩ := hab
    cases hl : lookupPrice prices a.symbol with
    | none =>
      have hlb : lookupPrice prices b.symbol = none := by rw [← hsym]; exact hl
      rw [checkAssetList_cons_skip prices now e1 a l1 hl,
        checkAssetList_cons_skip prices now e2 b l2 hlb]
      exact ih e1 e2 hc hst
    | some p =>
      have hlb : lookupPrice prices b.symbol = some p := by rw [← hsym]; exact hl
      rw [checkAssetList_cons_hit prices now e1 a l1 p hl,
        checkAssetList_cons_hit prices now e2 b l2 p hlb]
      dsimp only
      have hct := checkTargets_congr a.symbol a.threshold_percent p now a.targets
        e1 e2 hc hst
      have hct2 : checkTargets b.symbol b.threshold_percent p now e2 b.targets =
          checkTargets a.symbol a.threshold_percent p now e2 a.targets := by
        rw [hsym, htgt, hthr]
      have hcool : (checkTargets a.symbol a.threshold_percent p now e1 a.targets).2.cooldown_sec =
          (checkTargets b.symbol b.threshold_percent p now e2 b.targets).2.cooldown_sec := by
        rw [hct2, checkTargets_cooldown_sec, checkTargets_cooldown_sec, hc]
      have hstep : (checkTargets a.symbol a.threshold_percent p now e1 a.targets).2.states =
          (checkTargets b.symbol b.threshold_percent p now e2 b.targets).2.states := by
        rw [hct2, hct.2]
      obtain ⟨ih1, ih2⟩ := ih _ _ hcool hstep
      refine ⟨?_, ih2⟩
      rw [ih1, hct2, hct.1]

/-- Function `initStates` reads only symbols and targets, so it ignores the repeat
flag. -/
theorem initStates_congr (as1 as2 : List Asset)
    (h : List.Forall₂ SameExceptRepeatFlag as1 as2) :
    initStates as1 = initStates as2 := by
  unfold initStates
  suffices hgen : ∀ m : List (AlertKey × AlertState),
      as1.foldl (fun m2 a => a.targets.foldl
        (fun m3 t => setState m3 (a.symbol, t) ⟨false, none⟩) m2) m =
      as2.foldl (fun m2 a => a.targets.foldl
        (fun m3 t => setState m3 (a.symbol, t) ⟨false, none⟩) m2) m by
    exact hgen []
  induction h with
  | nil => intro m; rfl
  | cons hab hrest ih =>
    rename_i a b l1 l2
    intro m
    obtain ⟨hty, hname, hsym, htgt, hthr⟩ := hab
    simp only [List.foldl_cons, hsym, htgt]
    exact ih _

/-- Filtering by asset class preserves the field-agreement relation. -/
theorem filter_type_congr (as1 as2 : List Asset)
    (h : List.Forall₂ SameExceptRepeatFlag as1 as2) (ty : String) :
    List.Forall₂ SameExceptRepeatFlag
      (as1.filter (fun a => decide (a.type = ty)))
      (as2.filter (fun a => decide (a.type = ty))) := by
  induction h with
  | nil => simp
  | cons hab hrest ih =>
    rename_i a b l1 l2
    by_cases hd : a.type = ty
    · have hdb : b.type = ty := by rw [← hab.1]; exact hd
      simpa [List.filter_cons, hd, hdb] using List.Forall₂.cons hab ih
    · have hdb : ¬ b.type = ty := by rw [← hab.1]; exact hd
      simpa [List.filter_cons, hd, hdb] using ih

/-- C8: the `allow_repeat_alerts` flag is inert. Two configurations that agree
on everything except that flag produce the same pre-registered state map, and
on any tick (same fetched prices, same clock, same prior engine state) the
same fires and the same resulting alert states — the edge-triggered rule
applies unconditionally. -/
theorem C8_repeat_flag_inert (as1 as2 : List Asset)
    (h : List.Forall₂ SameExceptRepeatFlag as1 as2) (c : ℚ)
    (st : List (AlertKey × AlertState)) (asset_type : String)
    (prices : List (String × ℚ)) (now : ℚ) :
    initStates as1 = initStates as2 ∧
    ((PriceMonitor.mk as1 (AlertEngine.mk as1 c st)).check_assets
        asset_type prices now).1 =
      ((PriceMonitor.mk as2 (AlertEngine.mk as2 c st)).check_assets
        asset_type prices now).1 ∧
    ((PriceMonitor.mk as1 (AlertEngine.mk as1 c st)).check_assets
        asset_type prices now).2.alert_engine.states =
      ((PriceMonitor.mk as2 (AlertEngine.mk as2 c st)).check_assets
        asset_type prices now).2.alert_engine.states := by
  refine ⟨initStates_congr as1 as2 h, ?_⟩
  have hfil := filter_type_congr as1 as2 h asset_type
  have hlen : (as1.filter (fun a => decide (a.type = asset_type))).length =
      (as2.filter (fun a => decide (a.type = asset_type))).length :=
    List.Forall₂.length_eq hfil
  unfold PriceMonitor.check_assets
  dsimp only
  cases h1 : (as1.filter (fun a => decide (a.type = asset_type))).isEmpty with
  | true =>
    have h2 : (as2.filter (fun a => decide (a.type = asset_type))).isEmpty = true := by
      rw [List.isEmpty_iff_length_eq_zero] at h1 ⊢
      rw [← hlen]
      exact h1
    rw [h2]
    exact ⟨rfl, rfl⟩
  | false =>
    have h2 : (as2.filter (fun a => decide (a.type = asset_type))).isEmpty = false := by
      cases hb : (as2.filter (fun a => decide (a.type = asset_type))).isEmpty with
      | false => rfl
      | true =>
        exfalso
        rw [List.isEmpty_iff_length_eq_zero] at hb
        have h0 : (as1.filter (fun a => decide (a.type = asset_type))).isEmpty = true := by
          rw [List.isEmpty_iff_length_eq_zero, hlen]
          exact hb
        rw [h0] at h1
        cases h1
    rw [h2]
    cases h3 : prices.isEmpty with
    | true => exact ⟨rfl, rfl⟩
    | false =>
      simp only [Bool.false_eq_true, if_false]
      have hcgr := checkAssetList_congr prices now
        (as1.filter (fun a => decide (a.type = asset_type)))
        (as2.filter (fun a => decide (a.type = asset_type))) hfil
        (AlertEngine.mk as1 c st) (AlertEngine.mk as2 c st) rfl rfl
      exact hcgr

/-- Witness for C8: BTC configured with `allow_repeat_alerts` true versus
false yields the same initial state map, fires and states on a tick. -/
theorem C8_witness :
    (initStates [⟨"crypto", "Bitcoin", "BTC", [50000], 5/100, true⟩] =
      initStates [⟨"crypto", "Bitcoin", "BTC", [50000], 5/100, false⟩] ∧
    ((PriceMonitor.mk [⟨"crypto", "Bitcoin", "BTC", [50000], 5/100, true⟩]
        (AlertEngine.mk [⟨"crypto", "Bitcoin", "BTC", [50000], 5/100, true⟩] 300 [])).check_assets
        "crypto" [("BTC", 50025)] 0).1 =
      ((PriceMonitor.mk [⟨"crypto", "Bitcoin", "BTC", [50000], 5/100, false⟩]
        (AlertEngine.mk [⟨"crypto", "Bitcoin", "BTC", [50000], 5/100, false⟩] 300 [])).check_assets
        "crypto" [("BTC", 50025)] 0).1 ∧
    ((PriceMonitor.mk [⟨"crypto", "Bitcoin", "BTC", [50000], 5/100, true⟩]
        (AlertEngine.mk [⟨"crypto", "Bitcoin", "BTC", [50000], 5/100, true⟩] 300 [])).check_assets
        "crypto" [("BTC", 50025)] 0).2.alert_engine.states =
      ((PriceMonitor.mk [⟨"crypto", "Bitcoin", "BTC", [50000], 5/100, false⟩]
        (AlertEngine.mk [⟨"crypto", "Bitcoin", "BTC", [50000], 5/100, false⟩] 300 [])).check_assets
        "crypto" [("BTC", 50025)] 0).2.alert_engine.states) :=
  C8_repeat_flag_inert
    [⟨"crypto", "Bitcoin", "BTC", [50000], 5/100, true⟩]
    [⟨"crypto", "Bitcoin", "BTC", [50000], 5/100, false⟩]
    (List.Forall₂.cons ⟨rfl, rfl, rfl, rfl, rfl⟩ List.Forall₂.nil)
    300 [] "crypto" [("BTC", 50025)] 0

end MonitorBot
